import Mathlib

/-!
Shallow embedding of `src/main.py` of the genai-code-review repository:
the content-aggregation and review-request orchestration pipeline.

Modelling conventions:
* Strings of the Python source are Lean `String`s; the regex-based text
  algorithms (`re.split` on the diff boundary, the diff-header filename
  regex, `str.strip`) are embedded as executable functions over `List Char`.
* The GitHub and OpenAI collaborators are oracles (`GithubEnv`, `OpenAIEnv`);
  each pipeline function returns the ordered trace of outbound calls it makes
  (an `Event` list) instead of performing I/O.  A regex pattern used only as
  a file filter is modelled as the predicate `re.search pattern ·` gives.
* A file-content fetch that raises in Python is `none` in `GithubEnv.contentOf`.
-/

/-- The whitespace characters stripped by Python's `str.strip()` (ASCII range). -/
def pyWS (c : Char) : Bool :=
  c = ' ' || c = '\t' || c = '\n' || c = '\x0b' || c = '\x0c' || c = '\r'

/-- Python `str.strip()` on a list of characters: drop whitespace from both ends. -/
def pyStrip (s : List Char) : List Char :=
  ((s.dropWhile pyWS).reverse.dropWhile pyWS).reverse

/-- The per-file diff boundary marker of the `re.split(r'(?=^diff --git )', ...)`
call in `analyze_patch` (source line 204). -/
def diffMarker : List Char := ("diff --git ").toList

/-- Does the text start with the per-file diff boundary marker? -/
def isDiffHeaderAt (cs : List Char) : Bool := diffMarker.isPrefixOf cs

/-- Scanner for `re.split(r'(?=^diff --git )', patch, flags=re.MULTILINE)`:
`acc` holds the (reversed) characters of the segment being built; a split
happens after a newline whose remainder starts with the boundary marker
(the lookahead leaves the marker in the following segment). -/
def splitDiffAux : List Char → List Char → List (List Char)
  | [], acc => [acc.reverse]
  | c :: rest, acc =>
    if c = '\n' && isDiffHeaderAt rest then
      (acc.reverse ++ ['\n']) :: splitDiffAux rest []
    else
      splitDiffAux rest (c :: acc)

/-- `re.split(r'(?=^diff --git )', patch, flags=re.MULTILINE)` (source line 204):
`^` also matches at the start of the string, where Python emits a leading
empty segment. -/
def splitDiff (cs : List Char) : List (List Char) :=
  if isDiffHeaderAt cs then [] :: splitDiffAux cs [] else splitDiffAux cs []

/-- The lines of a text as `^`/`$` of `re.MULTILINE` see them: split at each
newline character (a trailing newline yields a final empty line). -/
def splitLines : List Char → List (List Char)
  | [] => [[]]
  | c :: rest =>
    if c = '\n' then [] :: splitLines rest
    else
      match splitLines rest with
      | [] => [[c]]
      | l :: ls => (c :: l) :: ls

/-- The literal ` b/` of the filename regex `^diff --git a\/.+ b\/(.+)`. -/
def bMarker : List Char := (" b/").toList

/-- The destination-path token of `.+ b\/(.+)` applied to the rest of a header
line: the suffix after the *last* occurrence of ` b/` that has at least one
character before it (`pre` tracks the characters already passed) and at least
one after, matching the greedy backtracking of the Python regex engine. -/
def findDest : List Char → List Char → Option (List Char)
  | _, [] => none
  | pre, c :: rest =>
    match findDest (pre ++ [c]) rest with
    | some r => some r
    | none =>
      if bMarker.isPrefixOf (c :: rest) && !pre.isEmpty && !(rest.drop 2).isEmpty then
        some (rest.drop 2)
      else none

/-- The literal prefix `diff --git a/` of the filename regex. -/
def aMarker : List Char := ("diff --git a/").toList

/-- Match of `^diff --git a\/.+ b\/(.+)` against one line: the line must start
with `diff --git a/` (13 characters) and its remainder must contain a valid
` b/` split; the capture group is the destination path. -/
def headerDest (line : List Char) : Option (List Char) :=
  if aMarker.isPrefixOf line then findDest [] (line.drop 13) else none

/-- `re.search(r'^diff --git a\/.+ b\/(.+)', diff_text, re.MULTILINE)` followed by
`match.group(1) if match else "Unknown file"` (source lines 210-211): the first
line that matches yields its destination token, otherwise the sentinel. -/
def extract_file_name (seg : List Char) : String :=
  match (splitLines seg).findSome? headerDest with
  | some tok => String.mk tok
  | none => "Unknown file"

/-- The loop body of `analyze_patch` (source lines 207-213): whitespace-only
segments are dropped, each retained segment contributes a header with its
extracted filename and a diff-fenced block of the stripped segment text. -/
def combine_diffs : List (List Char) → String
  | [] => ""
  | seg :: rest =>
    if (pyStrip seg).isEmpty then combine_diffs rest
    else
      "\n### File: " ++ extract_file_name seg ++ "\n```diff\n" ++
        String.mk (pyStrip seg) ++ "```\n" ++ combine_diffs rest

/-- The fixed default review template of `create_review_prompt`
(source lines 245-276; Python juxtaposes the adjacent f-string literals). -/
def default_review_prompt (content language : String) : String :=
  "Please review the following code for clarity, efficiency, and adherence to best practices." ++
  "Identify any areas for improvement, suggest specific optimizations, and note potential bugs or security vulnerabilities. " ++
  "Additionally, provide suggestions for how to address the identified issues, with a focus on maintainability and scalability. " ++
  "Include examples of code where relevant. Use markdown formatting for your response:\n\n" ++
  "Write this code review in the following " ++ language ++ ":\n\n" ++
  "Do not write the code or guidelines in the review. Only write the review itself.\n\n" ++
  "### Code\n```" ++ content ++ "```\n\n" ++
  "### Review Guidelines\n" ++
  "1. **Clarity**: Is the code easy to understand?\n" ++
  "2. **Efficiency**: Are there any performance improvements?\n" ++
  "3. **Best Practices**: Does the code follow standard coding conventions?\n" ++
  "4. **Bugs/Security**: Are there any potential bugs or security vulnerabilities?\n" ++
  "5. **Maintainability**: Is the code easy to maintain and scale?\n\n" ++
  "### Review Example\n" ++
  "1. **Issue**: The variable names are not descriptive.\n" ++
  "   **Suggestion**: Use more descriptive variable names that reflect their purpose. For example:\n" ++
  "   ```python\n" ++
  "   # Instead of this:\n" ++
  "   x = 5\n" ++
  "   # Use this:\n" ++
  "   item_count = 5\n" ++
  "   ```\n" ++
  "2. **Issue**: There is a potential SQL injection vulnerability.\n" ++
  "   **Suggestion**: Use parameterized queries to prevent SQL injection. For example:\n" ++
  "   ```python\n" ++
  "   # Instead of this:\n" ++
  "   cursor.execute(f'SELECT * FROM users WHERE username = (username)')\n" ++
  "   # Use this:\n" ++
  "   cursor.execute('SELECT * FROM users WHERE username = %s', (username,))\n" ++
  "   ```"

/-- `create_review_prompt(content, language, custom_prompt=None)` (source
lines 225-276).  `if custom_prompt:` is Python truthiness: an absent (`none`)
or empty custom prompt selects the default template. -/
def create_review_prompt (content language : String) (customPrompt : Option String) : String :=
  match customPrompt with
  | some cp =>
    if cp = "" then default_review_prompt content language
    else
      cp ++ "\n" ++ "### Code\n```" ++ content ++ "```\n\n" ++
        "Write this code review in the following " ++ language ++ ":\n\n"
  | none => default_review_prompt content language

/-- A changed-file descriptor as returned by the source-control collaborator. -/
structure FileChange where
  filename : String
deriving Repr, DecidableEq

/-- A commit reference (hash). -/
structure Commit where
  sha : String
deriving Repr, DecidableEq

/-- One outbound collaborator call of a pipeline run. -/
inductive Event where
  | getPr (prId : Int)
  | getCommits
  | getCommitFiles (sha : String)
  | getFileContent (sha filename : String)
  | getPrPatch (prId : Int)
  | generate (prompt : String)
  | postComment (prId : Int) (body : String)
deriving Repr, DecidableEq

/-- Oracle for the GitHub collaborator: the data its calls would return.
`contentOf sha filename = none` models `get_file_content` raising. -/
structure GithubEnv where
  commits : List Commit
  filesOf : String → List FileChange
  contentOf : String → String → Option String
  patch : String

/-- Oracle for the OpenAI collaborator: `generate_response`. -/
structure OpenAIEnv where
  respond : String → String

/-- The include/exclude filtering steps of `analyze_commit_files` (source
lines 167-173).  A regex pattern is modelled as the predicate
`fun name => re.search pattern name is not None`; `none` models an absent
(falsy) pattern, whose `if` branch is skipped. -/
def filterFiles (files : List FileChange)
    (includeRegex excludeRegex : Option (String → Bool)) : List FileChange :=
  let files :=
    match includeRegex with
    | some p => files.filter fun f => p f.filename
    | none => files
  match excludeRegex with
  | some p => files.filter fun f => !(p f.filename)
  | none => files

/-- The per-file fetch loop of `analyze_commit_files` (source lines 175-182):
every file is fetched in order; a failed fetch (`none`) is skipped (its block
is not appended) and the loop continues.  Returns the trace of fetch calls
and the accumulated `combined_content`. -/
def fetch_files (gh : GithubEnv) (sha : String) : List FileChange → List Event × String
  | [] => ([], "")
  | f :: rest =>
    let r := fetch_files gh sha rest
    match gh.contentOf sha f.filename with
    | some content =>
      (Event.getFileContent sha f.filename :: r.1,
        "\n### File: " ++ f.filename ++ "\n```" ++ content ++ "```\n" ++ r.2)
    | none => (Event.getFileContent sha f.filename :: r.1, r.2)

/-- `analyze_commit_files` (source lines 150-187): list the commit's files,
filter, fetch each survivor, build one prompt, request one review, post one
comment. -/
def analyze_commit_files (gh : GithubEnv) (ai : OpenAIEnv) (prId : Int) (commit : Commit)
    (language : String) (customPrompt : Option String)
    (includeRegex excludeRegex : Option (String → Bool)) : List Event :=
  let files := filterFiles (gh.filesOf commit.sha) includeRegex excludeRegex
  let r := fetch_files gh commit.sha files
  let prompt := create_review_prompt r.2 language customPrompt
  Event.getCommitFiles commit.sha ::
    r.1 ++ [Event.generate prompt,
      Event.postComment prId ("ChatGPT's code review:\n " ++ ai.respond prompt)]

/-- `analyze_patch` (source lines 189-223): split the patch on diff-header
boundaries, build the combined diff from the retained segments, build one
prompt, request one review, post one comment.  (The `try` body on lines
209-213 is total, so the per-segment `except` comment branch is unreachable
in the embedding.) -/
def analyze_patch (ai : OpenAIEnv) (prId : Int) (patchContent : String)
    (language : String) (customPrompt : Option String) : List Event :=
  let fileDiffs := splitDiff patchContent.toList
  let combined := combine_diffs fileDiffs
  let prompt := create_review_prompt combined language customPrompt
  [Event.generate prompt,
    Event.postComment prId ("ChatGPT's code review:\n " ++ ai.respond prompt)]

/-- `process_files` (source lines 99-129): fetch the PR and its commits; if
there are none, stop; otherwise analyze the files of the last commit
(`commits[-1]`). -/
def process_files (gh : GithubEnv) (ai : OpenAIEnv) (prId : Int) (language : String)
    (customPrompt : Option String)
    (includeRegex excludeRegex : Option (String → Bool)) : List Event :=
  match gh.commits.getLast? with
  | none => [Event.getPr prId, Event.getCommits]
  | some last =>
    [Event.getPr prId, Event.getCommits] ++
      analyze_commit_files gh ai prId last language customPrompt includeRegex excludeRegex

/-- `process_patch` (source lines 131-148): fetch the patch; `if not
patch_content:` (empty string) post the fixed informational comment and stop,
otherwise analyze the patch. -/
def process_patch (gh : GithubEnv) (ai : OpenAIEnv) (prId : Int)
    (language : String) (customPrompt : Option String) : List Event :=
  if gh.patch = "" then
    [Event.getPrPatch prId, Event.postComment prId "Patch file does not contain any changes"]
  else
    [Event.getPrPatch prId] ++ analyze_patch ai prId gh.patch language customPrompt

/-- Is the event a completion-service call? -/
def Event.isGenerate : Event → Bool
  | .generate _ => true
  | _ => false

/-- Is the event a posted comment? -/
def Event.isPost : Event → Bool
  | .postComment _ _ => true
  | _ => false

/-- Is the event a file-change-list fetch? -/
def Event.isFileList : Event → Bool
  | .getCommitFiles _ => true
  | _ => false

/-- Is the event a file-content fetch? -/
def Event.isContentFetch : Event → Bool
  | .getFileContent _ _ => true
  | _ => false

/-- Number of completion-service calls in a trace. -/
def genCount (tr : List Event) : Nat := tr.countP Event.isGenerate

/-- Number of posted comments in a trace. -/
def postCount (tr : List Event) : Nat := tr.countP Event.isPost

/-- Is there a split boundary strictly inside the text: a newline whose
remainder starts with the diff boundary marker? -/
def hasBoundary : List Char → Bool
  | [] => false
  | c :: rest => (c = '\n' && isDiffHeaderAt rest) || hasBoundary rest

/-- `re.search(r'\.py$', name)` as a predicate: the include pattern of the
spec's File-Mode scenario. -/
def pyInc : String → Bool := fun s => (".py").toList.isSuffixOf s.toList

/-- A pattern matching every filename (used to exclude everything). -/
def allPat : String → Bool := fun _ => true

/-- Test oracle for the completion service. -/
def aiTest : OpenAIEnv := { respond := fun _ => "LGTM" }

/-- Test GitHub oracle: one commit, two changed files, all fetches succeed,
non-empty patch. -/
def ghTest : GithubEnv :=
  { commits := [Commit.mk "c1"]
    filesOf := fun _ => [FileChange.mk "a.py", FileChange.mk "b.md"]
    contentOf := fun _ _ => some "content"
    patch := "diff --git a/x.py b/x.py\n@@\n+print(1)\n" }

/-- Test GitHub oracle: no commits and an empty patch. -/
def ghEmpty : GithubEnv :=
  { commits := []
    filesOf := fun _ => []
    contentOf := fun _ _ => none
    patch := "" }

/-- Test GitHub oracle: every file-content fetch fails; whitespace-only patch. -/
def ghAllFail : GithubEnv :=
  { commits := [Commit.mk "s1"]
    filesOf := fun _ => [FileChange.mk "a.py", FileChange.mk "b.md"]
    contentOf := fun _ _ => none
    patch := " " }

/-! ## Lemmas about `pyStrip` -/

theorem pyStrip_sublist (s : List Char) : (pyStrip s).Sublist s := by
  have h2 : ((s.dropWhile pyWS).reverse.dropWhile pyWS).reverse.Sublist
      (s.dropWhile pyWS).reverse.reverse := (List.dropWhile_sublist _).reverse
  rw [List.reverse_reverse] at h2
  exact h2.trans (List.dropWhile_sublist _)

theorem filter_not_dropWhile (l : List Char) :
    (l.dropWhile pyWS).filter (fun c => !pyWS c) = l.filter (fun c => !pyWS c) := by
  induction l with
  | nil => rfl
  | cons c cs ih =>
    by_cases h : pyWS c
    · simp [List.dropWhile_cons, h, List.filter_cons, ih]
    · simp [List.dropWhile_cons, h, List.filter_cons]

theorem pyStrip_filter (s : List Char) :
    (pyStrip s).filter (fun c => !pyWS c) = s.filter (fun c => !pyWS c) := by
  simp [pyStrip, List.filter_reverse, filter_not_dropWhile, List.reverse_reverse]

theorem filter_eq_nil_of_pyStrip_nil {s : List Char} (h : pyStrip s = []) :
    s.filter (fun c => !pyWS c) = [] := by
  rw [← pyStrip_filter, h]
  rfl

theorem pyStrip_eq_nil {s : List Char} (h : ∀ c ∈ s, pyWS c = true) : pyStrip s = [] := by
  unfold pyStrip
  rw [List.dropWhile_eq_nil_iff.mpr h]
  rfl

/-! ## Lemmas about `splitDiff` -/

theorem flatten_splitDiffAux : ∀ (cs acc : List Char),
    (splitDiffAux cs acc).flatten = acc.reverse ++ cs := by
  intro cs
  induction cs with
  | nil => intro acc; simp [splitDiffAux]
  | cons c rest ih =>
    intro acc
    unfold splitDiffAux
    by_cases h : (decide (c = '\n') && isDiffHeaderAt rest) = true
    · rw [if_pos h]
      have hc : c = '\n' := of_decide_eq_true ((Bool.and_eq_true _ _).mp h).1
      simp [ih, hc]
    · rw [if_neg h, ih]
      simp

theorem flatten_splitDiff (cs : List Char) : (splitDiff cs).flatten = cs := by
  unfold splitDiff
  by_cases h : isDiffHeaderAt cs = true
  · rw [if_pos h]
    simp [flatten_splitDiffAux]
  · rw [if_neg h]
    simpa using flatten_splitDiffAux cs []

theorem stripped_flatten_sublist (L : List (List Char)) :
    ((L.filter (fun s => !(pyStrip s).isEmpty)).map pyStrip).flatten.Sublist L.flatten := by
  induction L with
  | nil => simp
  | cons s rest ih =>
    by_cases h : (pyStrip s).isEmpty
    · simp only [List.filter_cons, h, Bool.not_true, Bool.false_eq_true, if_false,
        List.flatten_cons]
      exact ih.trans (List.sublist_append_right _ _)
    · rw [List.filter_cons, if_pos (by simp [h])]
      simp only [List.map_cons, List.flatten_cons]
      exact (pyStrip_sublist s).append ih

theorem stripped_flatten_filter (L : List (List Char)) :
    ((((L.filter (fun s => !(pyStrip s).isEmpty)).map pyStrip).flatten).filter
        (fun c => !pyWS c))
      = (L.flatten).filter (fun c => !pyWS c) := by
  induction L with
  | nil => rfl
  | cons s rest ih =>
    by_cases h : (pyStrip s).isEmpty
    · have hnil : pyStrip s = [] := List.isEmpty_iff.mp h
      simp only [List.filter_cons, h, Bool.not_true, Bool.false_eq_true, if_false,
        List.flatten_cons, List.filter_append, ih, filter_eq_nil_of_pyStrip_nil hnil,
        List.nil_append]
    · rw [List.filter_cons, if_pos (by simp [h])]
      simp only [List.map_cons, List.flatten_cons, List.filter_append, ih, pyStrip_filter]

/-! ## Lemmas about `filterFiles` -/

theorem filter_idem {α : Type} (p : α → Bool) (l : List α) :
    (l.filter p).filter p = l.filter p :=
  List.filter_eq_self.mpr (fun _ ha => (List.mem_filter.mp ha).2)

theorem filter_pair_idem {α : Type} (p q : α → Bool) (l : List α) :
    (((l.filter p).filter q).filter p).filter q = (l.filter p).filter q := by
  have h1 : ((l.filter p).filter q).filter p = (l.filter p).filter q :=
    List.filter_eq_self.mpr
      (fun a ha => (List.mem_filter.mp (List.mem_filter.mp ha).1).2)
  rw [h1, filter_idem]

theorem filterFiles_sublist (files : List FileChange)
    (inc exc : Option (String → Bool)) : (filterFiles files inc exc).Sublist files := by
  unfold filterFiles
  cases inc with
  | none =>
    cases exc with
    | none => exact List.Sublist.refl _
    | some q => exact List.filter_sublist _
  | some p =>
    cases exc with
    | none => exact List.filter_sublist _
    | some q => exact (List.filter_sublist _).trans (List.filter_sublist _)

/-! ## Lemmas about the event traces -/

theorem fetch_files_fst (gh : GithubEnv) (sha : String) (files : List FileChange) :
    (fetch_files gh sha files).1 = files.map (fun f => Event.getFileContent sha f.filename) := by
  induction files with
  | nil => rfl
  | cons f rest ih =>
    unfold fetch_files
    cases h : gh.contentOf sha f.filename <;> simp [h, ih]

theorem fetch_files_all_fail (gh : GithubEnv) (sha : String) {files : List FileChange}
    (h : ∀ g ∈ files, gh.contentOf sha g.filename = none) :
    fetch_files gh sha files =
      (files.map (fun g => Event.getFileContent sha g.filename), "") := by
  induction files with
  | nil => rfl
  | cons f rest ih =>
    have hf : gh.contentOf sha f.filename = none := h f (by simp)
    have hrest := ih (fun g hg => h g (List.mem_cons_of_mem _ hg))
    simp [fetch_files, hf, hrest]

theorem countP_fetch_events (p : Event → Bool) (sha : String) (files : List FileChange)
    (hp : ∀ s n, p (Event.getFileContent s n) = false) :
    List.countP p (files.map (fun f => Event.getFileContent sha f.filename)) = 0 := by
  rw [List.countP_eq_zero]
  intro a ha
  obtain ⟨f, _, rfl⟩ := List.mem_map.mp ha
  simp [hp]

theorem genCount_analyze_commit_files (gh : GithubEnv) (ai : OpenAIEnv) (prId : Int)
    (commit : Commit) (language : String) (cp : Option String)
    (inc exc : Option (String → Bool)) :
    genCount (analyze_commit_files gh ai prId commit language cp inc exc) = 1 := by
  unfold analyze_commit_files genCount
  dsimp only
  rw [List.countP_append, List.countP_cons, fetch_files_fst,
    countP_fetch_events _ _ _ (fun _ _ => rfl)]
  rfl

/-! ## Lemmas about `splitLines`, boundaries and filename extraction -/

theorem splitLines_ne_nil (cs : List Char) : splitLines cs ≠ [] := by
  cases cs with
  | nil => simp [splitLines]
  | cons c rest =>
    unfold splitLines
    by_cases h : c = '\n'
    · rw [if_pos h]
      simp
    · rw [if_neg h]
      cases hs : splitLines rest <;> simp

theorem splitLines_exists_cons (cs : List Char) :
    ∃ l0 ls0, splitLines cs = l0 :: ls0 := by
  cases hs : splitLines cs with
  | nil => exact absurd hs (splitLines_ne_nil cs)
  | cons a b => exact ⟨a, b, rfl⟩

theorem isPrefixOf_head_line : ∀ (pat : List Char), '\n' ∉ pat →
    ∀ (cs l : List Char) (ls : List (List Char)),
      pat.isPrefixOf cs = true → splitLines cs = l :: ls → pat.isPrefixOf l = true := by
  intro pat
  induction pat with
  | nil => intro _ cs l ls _ _; cases l <;> rfl
  | cons p ps ih =>
    intro hnl cs l ls h hsl
    cases cs with
    | nil => simp [List.isPrefixOf] at h
    | cons c rest =>
      simp only [List.isPrefixOf, Bool.and_eq_true, beq_iff_eq] at h
      obtain ⟨hpeq, hps⟩ := h
      have hcn : ¬ c = '\n' := by
        intro hc
        exact hnl (by rw [← hpeq] at hc; rw [hc]; exact List.mem_cons_self _ _)
      unfold splitLines at hsl
      rw [if_neg hcn] at hsl
      obtain ⟨l0, ls0, hs⟩ := splitLines_exists_cons rest
      rw [hs] at hsl
      injection hsl with h1 _
      subst h1
      have hnl2 : '\n' ∉ ps := fun hm => hnl (List.mem_cons_of_mem _ hm)
      have htl := ih hnl2 rest l0 ls0 hps hs
      simp [List.isPrefixOf, hpeq, htl]

theorem isDiffHeaderAt_head_line {cs l : List Char} {ls : List (List Char)}
    (h : isDiffHeaderAt cs = true) (hsl : splitLines cs = l :: ls) :
    isDiffHeaderAt l = true :=
  isPrefixOf_head_line diffMarker (by decide) cs l ls h hsl

theorem hasBoundary_eq_false : ∀ {cs : List Char},
    (∀ l ∈ (splitLines cs).tail, isDiffHeaderAt l = false) → hasBoundary cs = false := by
  intro cs
  induction cs with
  | nil => intro _; rfl
  | cons c rest ih =>
    intro h
    unfold hasBoundary
    by_cases hc : c = '\n'
    · have he : splitLines (c :: rest) = [] :: splitLines rest := by
        simp only [splitLines]
        rw [if_pos hc]
      have htail : ∀ l ∈ splitLines rest, isDiffHeaderAt l = false := by
        intro l hl
        apply h
        rw [he]
        simpa using hl
      obtain ⟨l0, ls0, hs⟩ := splitLines_exists_cons rest
      have hhead : isDiffHeaderAt rest = false := by
        cases hdr : isDiffHeaderAt rest with
        | false => rfl
        | true =>
          have h1 := isDiffHeaderAt_head_line hdr hs
          have h2 := htail l0 (hs ▸ List.mem_cons_self _ _)
          rw [h1] at h2
          exact absurd h2 (by simp)
      have hb : hasBoundary rest = false :=
        ih (fun l hl => htail l (List.mem_of_mem_tail hl))
      rw [hhead, hb]
      simp
    · have he : (splitLines (c :: rest)).tail = (splitLines rest).tail := by
        simp only [splitLines]
        rw [if_neg hc]
        obtain ⟨l0, ls0, hs⟩ := splitLines_exists_cons rest
        rw [hs]
        rfl
      have hb : hasBoundary rest = false := ih (fun l hl => h l (he ▸ hl))
      rw [hb]
      simp [hc]

theorem splitDiffAux_no_boundary : ∀ {cs : List Char}, hasBoundary cs = false →
    ∀ acc, splitDiffAux cs acc = [acc.reverse ++ cs] := by
  intro cs
  induction cs with
  | nil => intro _ acc; simp [splitDiffAux]
  | cons c rest ih =>
    intro h acc
    unfold hasBoundary at h
    rw [Bool.or_eq_false_iff] at h
    unfold splitDiffAux
    rw [if_neg (by simp [h.1]), ih h.2]
    simp

theorem splitDiff_no_boundary {cs : List Char} (h0 : isDiffHeaderAt cs = false)
    (hb : hasBoundary cs = false) : splitDiff cs = [cs] := by
  unfold splitDiff
  rw [if_neg (by simp [h0])]
  simpa using splitDiffAux_no_boundary hb []

theorem headerDest_eq_none {l : List Char} (h : isDiffHeaderAt l = false) :
    headerDest l = none := by
  have hne : ¬ (aMarker.isPrefixOf l = true) := by
    intro hcon
    have h1 : diffMarker <+: aMarker := by decide
    have h2 : aMarker <+: l := List.isPrefixOf_iff_prefix.mp hcon
    have h3 : diffMarker.isPrefixOf l = true := List.isPrefixOf_iff_prefix.mpr (h1.trans h2)
    rw [isDiffHeaderAt] at h
    rw [h3] at h
    exact absurd h (by simp)
  unfold headerDest
  rw [if_neg hne]

theorem extract_file_name_unknown {seg : List Char}
    (h : ∀ l ∈ splitLines seg, headerDest l = none) :
    extract_file_name seg = "Unknown file" := by
  unfold extract_file_name
  rw [List.findSome?_eq_none_iff.mpr h]

/-! ## Lemmas about whitespace-only patches -/

theorem combine_diffs_of_strip_nil : ∀ {L : List (List Char)},
    (∀ s ∈ L, pyStrip s = []) → combine_diffs L = "" := by
  intro L
  induction L with
  | nil => intro _; rfl
  | cons s rest ih =>
    intro h
    unfold combine_diffs
    rw [if_pos (by rw [h s (List.mem_cons_self _ _)]; rfl)]
    exact ih (fun t ht => h t (List.mem_cons_of_mem _ ht))

theorem combine_splitDiff_all_ws {cs : List Char} (h : ∀ c ∈ cs, pyWS c = true) :
    combine_diffs (splitDiff cs) = "" := by
  apply combine_diffs_of_strip_nil
  intro s hs
  apply pyStrip_eq_nil
  intro c hc
  apply h
  have hsub := List.sublist_flatten_of_mem hs
  rw [flatten_splitDiff] at hsub
  exact hsub.subset hc

/-! ## Claim theorems -/

/-- C1: For every invocation that reaches the aggregation stage (File-Mode with
a non-empty commit list, or Patch-Mode with a non-empty patch), the completion
service's generate operation is called exactly once, regardless of how many
files or diff segments the run processes (including zero surviving files or
zero retained segments). -/
theorem c1_single_generate_call (gh : GithubEnv) (ai : OpenAIEnv) (prId : Int)
    (language : String) (cp : Option String) (inc exc : Option (String → Bool))
    (hc : gh.commits ≠ []) (hp : gh.patch ≠ "") :
    genCount (process_files gh ai prId language cp inc exc) = 1 ∧
    genCount (process_patch gh ai prId language cp) = 1 := by
  constructor
  · unfold process_files
    rw [List.getLast?_eq_getLast _ hc]
    have h2 := genCount_analyze_commit_files gh ai prId (gh.commits.getLast hc)
      language cp inc exc
    unfold genCount at h2 ⊢
    dsimp only
    rw [List.countP_append, h2]
    rfl
  · unfold process_patch
    rw [if_neg hp]
    unfold analyze_patch genCount
    dsimp only
    rfl

/-- Witness for C1 at a concrete environment with one commit and a non-empty
patch. -/
theorem c1_single_generate_call_witness :
    ghTest.commits ≠ [] ∧ ghTest.patch ≠ "" ∧
    genCount (process_files ghTest aiTest 3 "en" (some "P") (some pyInc) none) = 1 ∧
    genCount (process_patch ghTest aiTest 3 "en" (some "P")) = 1 :=
  ⟨by decide, by decide,
    c1_single_generate_call ghTest aiTest 3 "en" (some "P") (some pyInc) none
      (by decide) (by decide)⟩

/-- C2: For every patch string, splitting it on diff-header boundaries with the
lookahead rule reproduces the patch exactly on concatenation; after dropping
whitespace-only segments and trimming the rest, the concatenation of the
bodies is a subsequence of the original patch and preserves every
non-whitespace character in order — segmentation loses, duplicates and
reorders nothing but whitespace. -/
theorem c2_segmentation_lossless (cs : List Char) :
    (splitDiff cs).flatten = cs ∧
    (((splitDiff cs).filter (fun s => !(pyStrip s).isEmpty)).map pyStrip).flatten.Sublist cs ∧
    ((((splitDiff cs).filter (fun s => !(pyStrip s).isEmpty)).map pyStrip).flatten.filter
        (fun c => !pyWS c))
      = cs.filter (fun c => !pyWS c) := by
  refine ⟨flatten_splitDiff cs, ?_, ?_⟩
  · have h := stripped_flatten_sublist (splitDiff cs)
    rwa [flatten_splitDiff] at h
  · have h := stripped_flatten_filter (splitDiff cs)
    rwa [flatten_splitDiff] at h

/-- C3: For every list of FileChange and every pair of optional include and
exclude patterns, the filter's result is a subsequence of the input, and
filtering the output again with the same patterns returns it unchanged. -/
theorem c3_filter_sublist_idempotent (files : List FileChange)
    (inc exc : Option (String → Bool)) :
    (filterFiles files inc exc).Sublist files ∧
    filterFiles (filterFiles files inc exc) inc exc = filterFiles files inc exc := by
  refine ⟨filterFiles_sublist files inc exc, ?_⟩
  unfold filterFiles
  cases inc with
  | none =>
    cases exc with
    | none => rfl
    | some q => exact filter_idem _ _
  | some p =>
    cases exc with
    | none => exact filter_idem _ _
    | some q => exact filter_pair_idem _ _ _

/-- C4 counterexample: with a present custom prompt the builder's output is not
the claimed concatenation — the code inserts a newline after the custom prompt
(`f"{custom_prompt}\n"`), which the claim omits. -/
theorem c4_counterexample :
    create_review_prompt "c" "en" (some "X") ≠
      "X" ++ "### Code\n```" ++ "c" ++ "```\n\n" ++
        "Write this code review in the following " ++ "en" ++ ":\n\n" := by
  decide

/-- C4 (amended): for every content, language and present (non-empty) custom
prompt, the builder returns exactly customPrompt + "\n" + "### Code\n`` ` " +
content + "`` ` \n\n" + "Write this code review in the following " + language +
":\n\n", with no other text inserted. -/
theorem c4_custom_prompt_format (content language cp : String) (h : cp ≠ "") :
    create_review_prompt content language (some cp) =
      cp ++ "\n" ++ "### Code\n```" ++ content ++ "```\n\n" ++
        "Write this code review in the following " ++ language ++ ":\n\n" := by
  unfold create_review_prompt
  dsimp only
  rw [if_neg h]

/-- Witness for C4 at concrete inputs. -/
theorem c4_custom_prompt_format_witness :
    ("X" : String) ≠ "" ∧
    create_review_prompt "c" "en" (some "X") =
      "X" ++ "\n" ++ "### Code\n```" ++ "c" ++ "```\n\n" ++
        "Write this code review in the following " ++ "en" ++ ":\n\n" :=
  ⟨by decide, c4_custom_prompt_format "c" "en" "X" (by decide)⟩

/-- C6: Given an empty patch string, the Patch-Mode pipeline posts exactly one
informational comment on the pull request and makes no call to the completion
service. -/
theorem c6_empty_patch_informational (gh : GithubEnv) (ai : OpenAIEnv) (prId : Int)
    (language : String) (cp : Option String) (h : gh.patch = "") :
    process_patch gh ai prId language cp =
      [Event.getPrPatch prId,
        Event.postComment prId "Patch file does not contain any changes"] ∧
    postCount (process_patch gh ai prId language cp) = 1 ∧
    genCount (process_patch gh ai prId language cp) = 0 := by
  have e : process_patch gh ai prId language cp =
      [Event.getPrPatch prId,
        Event.postComment prId "Patch file does not contain any changes"] := by
    unfold process_patch
    rw [if_pos h]
  refine ⟨e, ?_, ?_⟩ <;> rw [e] <;> rfl

/-- Witness for C6 at a concrete environment whose patch is empty. -/
theorem c6_empty_patch_informational_witness :
    ghEmpty.patch = "" ∧
    (process_patch ghEmpty aiTest 2 "en" none =
        [Event.getPrPatch 2,
          Event.postComment 2 "Patch file does not contain any changes"] ∧
      postCount (process_patch ghEmpty aiTest 2 "en" none) = 1 ∧
      genCount (process_patch ghEmpty aiTest 2 "en" none) = 0) :=
  ⟨rfl, c6_empty_patch_informational ghEmpty aiTest 2 "en" none rfl⟩

/-- C7: Given a pull request whose commit list is empty, the File-Mode pipeline
stops after listing the commits: it posts no comment, fetches no file-change
list, fetches no file content, and makes no completion-service call. -/
theorem c7_no_commits_noop (gh : GithubEnv) (ai : OpenAIEnv) (prId : Int)
    (language : String) (cp : Option String) (inc exc : Option (String → Bool))
    (h : gh.commits = []) :
    process_files gh ai prId language cp inc exc = [Event.getPr prId, Event.getCommits] ∧
    postCount (process_files gh ai prId language cp inc exc) = 0 ∧
    genCount (process_files gh ai prId language cp inc exc) = 0 ∧
    List.countP Event.isFileList (process_files gh ai prId language cp inc exc) = 0 ∧
    List.countP Event.isContentFetch (process_files gh ai prId language cp inc exc) = 0 := by
  have e : process_files gh ai prId language cp inc exc =
      [Event.getPr prId, Event.getCommits] := by
    unfold process_files
    rw [h]
    rfl
  refine ⟨e, ?_, ?_, ?_, ?_⟩ <;> rw [e] <;> rfl

/-- Witness for C7 at a concrete environment with no commits. -/
theorem c7_no_commits_noop_witness :
    ghEmpty.commits = [] ∧
    (process_files ghEmpty aiTest 2 "en" none none none =
        [Event.getPr 2, Event.getCommits] ∧
      postCount (process_files ghEmpty aiTest 2 "en" none none none) = 0 ∧
      genCount (process_files ghEmpty aiTest 2 "en" none none none) = 0 ∧
      List.countP Event.isFileList (process_files ghEmpty aiTest 2 "en" none none none) = 0 ∧
      List.countP Event.isContentFetch
        (process_files ghEmpty aiTest 2 "en" none none none) = 0) :=
  ⟨rfl, c7_no_commits_noop ghEmpty aiTest 2 "en" none none none rfl⟩

/-- C8: In File-Mode a failed content fetch only skips that file: the fetch
loop still visits the remaining files and contributes the same content as
without the failed file; and when every surviving file's fetch fails, the
pipeline still fetches each file, builds the prompt from the empty aggregated
content, calls the completion service once, and posts the review comment. -/
theorem c8_fetch_failure_isolated (gh : GithubEnv) (ai : OpenAIEnv) (prId : Int)
    (commit : Commit) (language : String) (cp : Option String)
    (inc exc : Option (String → Bool)) (f : FileChange) (rest : List FileChange) :
    (gh.contentOf commit.sha f.filename = none →
      fetch_files gh commit.sha (f :: rest) =
        (Event.getFileContent commit.sha f.filename :: (fetch_files gh commit.sha rest).1,
          (fetch_files gh commit.sha rest).2)) ∧
    ((∀ g ∈ filterFiles (gh.filesOf commit.sha) inc exc,
        gh.contentOf commit.sha g.filename = none) →
      analyze_commit_files gh ai prId commit language cp inc exc =
        Event.getCommitFiles commit.sha ::
            (filterFiles (gh.filesOf commit.sha) inc exc).map
              (fun g => Event.getFileContent commit.sha g.filename) ++
          [Event.generate (create_review_prompt "" language cp),
            Event.postComment prId
              ("ChatGPT's code review:\n " ++
                ai.respond (create_review_prompt "" language cp))]) := by
  constructor
  · intro hf
    conv_lhs => rw [fetch_files]
    rw [hf]
  · intro hall
    unfold analyze_commit_files
    dsimp only
    rw [fetch_files_all_fail gh commit.sha hall]

/-- Witness for C8: the spec's scenario — include pattern selecting `a.py`,
whose fetch fails; the review is still requested and posted on empty content. -/
theorem c8_fetch_failure_isolated_witness :
    ghAllFail.contentOf (Commit.mk "s1").sha (FileChange.mk "a.py").filename = none ∧
    (∀ g ∈ filterFiles (ghAllFail.filesOf (Commit.mk "s1").sha) (some pyInc) none,
        ghAllFail.contentOf (Commit.mk "s1").sha g.filename = none) ∧
    fetch_files ghAllFail (Commit.mk "s1").sha [FileChange.mk "a.py"] =
      (Event.getFileContent (Commit.mk "s1").sha (FileChange.mk "a.py").filename ::
          (fetch_files ghAllFail (Commit.mk "s1").sha []).1,
        (fetch_files ghAllFail (Commit.mk "s1").sha []).2) ∧
    analyze_commit_files ghAllFail aiTest 7 (Commit.mk "s1") "en" (some "P")
        (some pyInc) none =
      Event.getCommitFiles (Commit.mk "s1").sha ::
          (filterFiles (ghAllFail.filesOf (Commit.mk "s1").sha) (some pyInc) none).map
            (fun g => Event.getFileContent (Commit.mk "s1").sha g.filename) ++
        [Event.generate (create_review_prompt "" "en" (some "P")),
          Event.postComment 7
            ("ChatGPT's code review:\n " ++
              aiTest.respond (create_review_prompt "" "en" (some "P")))] := by
  refine ⟨rfl, fun g _ => rfl, ?_, ?_⟩
  · exact (c8_fetch_failure_isolated ghAllFail aiTest 7 (Commit.mk "s1") "en" (some "P")
      (some pyInc) none (FileChange.mk "a.py") []).1 rfl
  · exact (c8_fetch_failure_isolated ghAllFail aiTest 7 (Commit.mk "s1") "en" (some "P")
      (some pyInc) none (FileChange.mk "a.py") []).2 (fun g _ => rfl)

/-- C9: In File-Mode, when the include/exclude filters remove every changed
file, the pipeline still makes exactly one completion-service call with an
empty content body and posts exactly one review comment. -/
theorem c9_empty_filtered_still_reviews (gh : GithubEnv) (ai : OpenAIEnv) (prId : Int)
    (commit : Commit) (language : String) (cp : Option String)
    (inc exc : Option (String → Bool))
    (h : filterFiles (gh.filesOf commit.sha) inc exc = []) :
    analyze_commit_files gh ai prId commit language cp inc exc =
      [Event.getCommitFiles commit.sha,
        Event.generate (create_review_prompt "" language cp),
        Event.postComment prId
          ("ChatGPT's code review:\n " ++
            ai.respond (create_review_prompt "" language cp))] ∧
    genCount (analyze_commit_files gh ai prId commit language cp inc exc) = 1 ∧
    postCount (analyze_commit_files gh ai prId commit language cp inc exc) = 1 := by
  have e : analyze_commit_files gh ai prId commit language cp inc exc =
      [Event.getCommitFiles commit.sha,
        Event.generate (create_review_prompt "" language cp),
        Event.postComment prId
          ("ChatGPT's code review:\n " ++
            ai.respond (create_review_prompt "" language cp))] := by
    unfold analyze_commit_files
    dsimp only
    rw [h]
    rfl
  refine ⟨e, ?_, ?_⟩ <;> rw [e] <;> rfl

/-- Witness for C9: both changed files are excluded by the exclude pattern. -/
theorem c9_empty_filtered_still_reviews_witness :
    filterFiles (ghTest.filesOf (Commit.mk "c1").sha) none (some allPat) = [] ∧
    (analyze_commit_files ghTest aiTest 4 (Commit.mk "c1") "en" (some "P") none
          (some allPat) =
        [Event.getCommitFiles (Commit.mk "c1").sha,
          Event.generate (create_review_prompt "" "en" (some "P")),
          Event.postComment 4
            ("ChatGPT's code review:\n " ++
              aiTest.respond (create_review_prompt "" "en" (some "P")))] ∧
      genCount (analyze_commit_files ghTest aiTest 4 (Commit.mk "c1") "en" (some "P")
          none (some allPat)) = 1 ∧
      postCount (analyze_commit_files ghTest aiTest 4 (Commit.mk "c1") "en" (some "P")
          none (some allPat)) = 1) :=
  ⟨by decide,
    c9_empty_filtered_still_reviews ghTest aiTest 4 (Commit.mk "c1") "en" (some "P")
      none (some allPat) (by decide)⟩

/-- C10: In Patch-Mode a non-empty, whitespace-only patch does not trigger the
informational comment: the pipeline proceeds, zero segments survive, and a
review generated from empty aggregated content is requested and posted. -/
theorem c10_whitespace_patch_reviews (gh : GithubEnv) (ai : OpenAIEnv) (prId : Int)
    (language : String) (cp : Option String)
    (hne : gh.patch ≠ "") (hws : ∀ c ∈ gh.patch.toList, pyWS c = true) :
    process_patch gh ai prId language cp =
      [Event.getPrPatch prId,
        Event.generate (create_review_prompt "" language cp),
        Event.postComment prId
          ("ChatGPT's code review:\n " ++
            ai.respond (create_review_prompt "" language cp))] ∧
    genCount (process_patch gh ai prId language cp) = 1 ∧
    postCount (process_patch gh ai prId language cp) = 1 := by
  have e : process_patch gh ai prId language cp =
      [Event.getPrPatch prId,
        Event.generate (create_review_prompt "" language cp),
        Event.postComment prId
          ("ChatGPT's code review:\n " ++
            ai.respond (create_review_prompt "" language cp))] := by
    unfold process_patch
    rw [if_neg hne]
    unfold analyze_patch
    dsimp only
    rw [combine_splitDiff_all_ws hws]
    rfl
  refine ⟨e, ?_, ?_⟩ <;> rw [e] <;> rfl

/-- Witness for C10 at a concrete environment whose patch is a single space. -/
theorem c10_whitespace_patch_reviews_witness :
    ghAllFail.patch ≠ "" ∧ (∀ c ∈ ghAllFail.patch.toList, pyWS c = true) ∧
    (process_patch ghAllFail aiTest 5 "en" (some "P") =
        [Event.getPrPatch 5,
          Event.generate (create_review_prompt "" "en" (some "P")),
          Event.postComment 5
            ("ChatGPT's code review:\n " ++
              aiTest.respond (create_review_prompt "" "en" (some "P")))] ∧
      genCount (process_patch ghAllFail aiTest 5 "en" (some "P")) = 1 ∧
      postCount (process_patch ghAllFail aiTest 5 "en" (some "P")) = 1) :=
  ⟨by decide, by decide,
    c10_whitespace_patch_reviews ghAllFail aiTest 5 "en" (some "P")
      (by decide) (by decide)⟩

set_option maxRecDepth 8192

/-- C5: For every retained diff segment, the extracted filename equals the
destination-path token of the first matching diff-header line when one is
present, and the sentinel "Unknown file" when none is; a patch with zero
diff-header lines yields one segment whose label is the sentinel; and in the
concrete run with a well-formed first segment and a malformed second one, the
labels are the real filename and the sentinel, both appearing in the
aggregated content. -/
theorem c5_filename_extraction :
    (∀ (seg l1 tok : List Char) (pre suf : List (List Char)),
        splitLines seg = pre ++ l1 :: suf → (∀ l ∈ pre, headerDest l = none) →
        headerDest l1 = some tok → extract_file_name seg = String.mk tok) ∧
    (∀ seg : List Char, (∀ l ∈ splitLines seg, headerDest l = none) →
        extract_file_name seg = "Unknown file") ∧
    (∀ cs : List Char, (∀ l ∈ splitLines cs, isDiffHeaderAt l = false) →
        splitDiff cs = [cs] ∧ extract_file_name cs = "Unknown file") ∧
    (splitDiff ("diff --git a/x.py b/x.py\n@@\n+print(1)\ndiff --git borked\nzzz\n").toList =
        [[], ("diff --git a/x.py b/x.py\n@@\n+print(1)\n").toList,
          ("diff --git borked\nzzz\n").toList] ∧
      extract_file_name (("diff --git a/x.py b/x.py\n@@\n+print(1)\n").toList) = "x.py" ∧
      extract_file_name (("diff --git borked\nzzz\n").toList) = "Unknown file" ∧
      ("### File: x.py").toList <:+:
        (combine_diffs (splitDiff
          ("diff --git a/x.py b/x.py\n@@\n+print(1)\ndiff --git borked\nzzz\n").toList)).toList ∧
      ("### File: Unknown file").toList <:+:
        (combine_diffs (splitDiff
          ("diff --git a/x.py b/x.py\n@@\n+print(1)\ndiff --git borked\nzzz\n").toList)).toList) := by
  refine ⟨?_, ?_, ?_, ?_⟩
  · intro seg l1 tok pre suf hsl hpre hl1
    have hfs : (splitLines seg).findSome? headerDest = some tok := by
      rw [hsl, List.findSome?_append, List.findSome?_eq_none_iff.mpr hpre, Option.none_or,
        List.findSome?_cons, hl1]
    unfold extract_file_name
    rw [hfs]
  · intro seg h
    exact extract_file_name_unknown h
  · intro cs h
    constructor
    · apply splitDiff_no_boundary
      · obtain ⟨l0, ls0, hs⟩ := splitLines_exists_cons cs
        cases hdr : isDiffHeaderAt cs with
        | false => rfl
        | true =>
          have h1 := isDiffHeaderAt_head_line hdr hs
          have h2 := h l0 (hs ▸ List.mem_cons_self _ _)
          rw [h1] at h2
          exact absurd h2 (by simp)
      · exact hasBoundary_eq_false (fun l hl => h l (List.mem_of_mem_tail hl))
    · exact extract_file_name_unknown (fun l hl => headerDest_eq_none (h l hl))
  · refine ⟨by decide, by decide, by decide, by decide, by decide⟩

/-- Witness for C5: a single well-formed header line, and a header-free text. -/
theorem c5_filename_extraction_witness :
    splitLines ("diff --git a/x.py b/x.py").toList =
      [] ++ ("diff --git a/x.py b/x.py").toList :: [] ∧
    headerDest ("diff --git a/x.py b/x.py").toList = some ("x.py").toList ∧
    extract_file_name ("diff --git a/x.py b/x.py").toList = String.mk ("x.py").toList ∧
    (∀ l ∈ splitLines ("hello").toList, isDiffHeaderAt l = false) ∧
    (splitDiff ("hello").toList = [("hello").toList] ∧
      extract_file_name ("hello").toList = "Unknown file") := by
  refine ⟨by decide, by decide, ?_, by decide, ?_⟩
  · exact (c5_filename_extraction).1 ("diff --git a/x.py b/x.py").toList
      ("diff --git a/x.py b/x.py").toList ("x.py").toList [] []
      (by decide) (by intro l hl; cases hl) (by decide)
  · exact (c5_filename_extraction).2.2.1 ("hello").toList (by decide)
